import Mathlib

/-!
Shallow embedding of the AutoThings detection-and-decision core
(`automation_tool/detection.py` and `automation_tool/automation_engine.py`).

Numeric conventions: Python floats that carry times, intervals, ratios and
match scores are modelled as rationals (`ℚ`); pixel channel values (uint8)
as `ℕ`; screen coordinates as `ℤ`.  Images are modelled by their pixel
contents: a colour frame in HSV space is the list of its pixels (the
BGR→HSV conversion performed by `cv2.cvtColor` is a per-pixel,
shape-preserving map, so the mask computation only sees the converted
pixel values); a grayscale matrix is a list of rows.
-/

/-- One HSV pixel: (hue, saturation, value), each channel a uint8 value. -/
abbrev HSV : Type := ℕ × ℕ × ℕ

/-- Model of `config_loader.HSVRange`: inclusive lower/upper channel bounds. -/
structure HSVRange where
  lower : HSV
  upper : HSV
deriving DecidableEq

/-- Model of the `cv2.inRange` membership test for a single pixel: every channel lies in
`[lower, upper]` inclusive. -/
def inRange (lower upper p : HSV) : Bool :=
  decide (lower.1 ≤ p.1 ∧ p.1 ≤ upper.1) &&
  decide (lower.2.1 ≤ p.2.1 ∧ p.2.1 ≤ upper.2.1) &&
  decide (lower.2.2 ≤ p.2.2 ∧ p.2.2 ≤ upper.2.2)

/-- The boolean mask produced by `cv2.inRange(hsv, range.lower, range.upper)`
for one configured range, as a per-pixel list. -/
def rangeMask (r : HSVRange) (img : List HSV) : List Bool :=
  img.map (inRange r.lower r.upper)

/-- Model of `cv2.bitwise_or(mask, section, mask)`: pointwise OR of two masks. -/
def bitwiseOr (m s : List Bool) : List Bool :=
  List.zipWith or m s

/-- Model of `np.zeros(hsv.shape[:2])`: the all-false mask over the image's pixels. -/
def zerosMask (img : List HSV) : List Bool :=
  img.map (fun _ => false)

/-- The accumulated mask of `ColorDetector.red_ratio`’s loop:
start from zeros and OR in each range's section in turn
(detection.py lines 63-66). -/
def redMask (ranges : List HSVRange) (img : List HSV) : List Bool :=
  ranges.foldl (fun m r => bitwiseOr m (rangeMask r img)) (zerosMask img)

/-- Model of `np.count_nonzero(mask)`. -/
def countNonzero (m : List Bool) : ℕ :=
  m.count true

/-- Model of `ColorDetector.red_ratio` (detection.py lines 61-68):
`float(np.count_nonzero(mask)) / float(mask.size)`.
When the image has zero pixels the Python code raises rather than
returning a value (`cv2.cvtColor` rejects an empty input; and were the
mask built anyway, `mask.size` would be `0` and the final float division
would raise `ZeroDivisionError`), so the embedding returns an error in
that case and the quotient otherwise. -/
def red_ratio (ranges : List HSVRange) (img : List HSV) : Except String ℚ :=
  let mask := redMask ranges img
  if mask.length = 0 then
    Except.error "float division by zero"
  else
    Except.ok ((countNonzero mask : ℚ) / (mask.length : ℚ))

/-- Model of `config_loader.Point`: an integer screen coordinate. -/
structure Point where
  x : ℤ
  y : ℤ
deriving DecidableEq

/-- Model of `config_loader.Region`: axis-aligned rectangle in screen coordinates. -/
structure Region where
  left : ℤ
  top : ℤ
  width : ℤ
  height : ℤ
deriving DecidableEq

/-- Model of `config_loader.TimingConfig` (times and intervals as rationals). -/
structure TimingConfig where
  cycle_delay : ℚ
  collect_interval : ℚ
  refresh_interval : ℚ
  post_click_delay : ℚ

/-- Model of `config_loader.TradeConfig`. -/
structure TradeConfig where
  name : String
  region : Region
  start_button : Point
  start_template : Option String
  start_gray_template : Option String
  red_ratio_threshold : ℚ

/-- Model of `detection.TradeStatus`. -/
structure TradeStatus where
  name : String
  red_ratio : ℚ
  has_red_gem : Bool
  start_active : Option Bool
  start_disabled : Option Bool
  template_score : Option ℚ
deriving DecidableEq

/-- The slice of `config_loader.AppConfig` the decision loop reads. -/
structure AppConfig where
  monitor : Region
  trades : List TradeConfig
  collect_button : Point
  refresh_button : Point
  hsv_ranges : List HSVRange
  timing : TimingConfig

/-- The engine's mutable timer state (`_last_collect_ts`, `_last_refresh_ts`). -/
structure EngineState where
  last_collect_ts : ℚ
  last_refresh_ts : ℚ
deriving DecidableEq

/-- Model of `AutomationEngine.__init__`: it sets both timestamps to `0.0`
(automation_engine.py lines 26-27). -/
def EngineState.init : EngineState :=
  { last_collect_ts := 0, last_refresh_ts := 0 }

/-- A pixel is in the union mask iff some configured range contains it. -/
def maskPixel (ranges : List HSVRange) (p : HSV) : Bool :=
  ranges.any fun r => inRange r.lower r.upper p

/-- The loop body of `AutomationEngine._handle_trades`
(automation_engine.py lines 93-104), processing the `zip(trades, statuses)`
pairs in order: a trade whose status has `has_red_gem` set is clicked at its
`start_button` when `start_active` is `None` or `True`
(`if status.start_active is None or status.start_active`), and `any_click`
records whether any click happened.  Returns the ordered click sequence sent
to the ClickSink together with the `any_click` flag. -/
def handle_trades_go : List (TradeConfig × TradeStatus) → List Point × Bool
  | [] => ([], false)
  | (trade, status) :: rest =>
    let tail := handle_trades_go rest
    if status.has_red_gem && status.start_active.getD true then
      (trade.start_button :: tail.1, true)
    else
      tail

/-- Model of `AutomationEngine._handle_trades`: iterate over
`zip(self._config.trades, statuses)`. -/
def handle_trades (trades : List TradeConfig) (statuses : List TradeStatus) :
    List Point × Bool :=
  handle_trades_go (trades.zip statuses)

/-- Model of `AutomationEngine._handle_collect` (automation_engine.py lines 109-118):
given the clock value `now` sampled at entry and the stored
`_last_collect_ts`, returns the clicks performed and the new
`_last_collect_ts`. -/
def handle_collect (timing : TimingConfig) (collect_button : Point)
    (now last : ℚ) : List Point × ℚ :=
  if timing.collect_interval ≤ 0 then
    ([], last)
  else if timing.collect_interval ≤ now - last then
    ([collect_button], now)
  else
    ([], last)

/-- Model of `AutomationEngine._handle_refresh` (automation_engine.py lines 120-137):
given the clock value `now` sampled at entry, the stored `_last_refresh_ts`,
the cycle's statuses and the `click_performed` flag from the trade step,
returns the clicks performed and the new `_last_refresh_ts`. -/
def handle_refresh (timing : TimingConfig) (refresh_button : Point)
    (now last : ℚ) (statuses : List TradeStatus) (click_performed : Bool) :
    List Point × ℚ :=
  let refresh_due := decide (0 < timing.refresh_interval) &&
    decide (timing.refresh_interval ≤ now - last)
  let no_red := !statuses.any (·.has_red_gem)
  let disabled_flags := statuses.filterMap (·.start_disabled)
  let all_disabled := decide (0 < disabled_flags.length) && disabled_flags.all id
  if (no_red || all_disabled || refresh_due) && !click_performed then
    ([refresh_button], now)
  else
    ([], last)

/-- The observable outcome of one decision-loop cycle: the clicks issued by
each trigger step (in order) and the timer state left behind. -/
structure CycleResult where
  trade_clicks : List Point
  collect_clicks : List Point
  refresh_clicks : List Point
  state : EngineState
deriving DecidableEq

/-- One cycle of `AutomationEngine._run_loop` (automation_engine.py lines
84-91) after the statuses have been evaluated: run the trade trigger, then
the collect trigger, then the refresh trigger, threading `click_performed`
from the trade step into the refresh step.  `_handle_collect` and
`_handle_refresh` each sample `time.time()` on entry, so the two clock
readings are separate inputs `now_collect` and `now_refresh`. -/
def run_cycle (cfg : AppConfig) (statuses : List TradeStatus)
    (now_collect now_refresh : ℚ) (st : EngineState) : CycleResult :=
  let trades := handle_trades cfg.trades statuses
  let collect := handle_collect cfg.timing cfg.collect_button now_collect
    st.last_collect_ts
  let refresh := handle_refresh cfg.timing cfg.refresh_button now_refresh
    st.last_refresh_ts statuses trades.2
  { trade_clicks := trades.1
    collect_clicks := collect.1
    refresh_clicks := refresh.1
    state := { last_collect_ts := collect.2, last_refresh_ts := refresh.2 } }

/-- A concrete timing configuration matching `config_loader.TimingConfig`'s
defaults except for a collect interval of 150 time-units. -/
def sampleTiming : TimingConfig :=
  { cycle_delay := 1/2, collect_interval := 150, refresh_interval := 60,
    post_click_delay := 3/20 }

/-- A concrete application configuration used to evaluate the decision loop
on explicit inputs. -/
def sampleConfig : AppConfig :=
  { monitor := ⟨0, 0, 1920, 1080⟩
    trades := []
    collect_button := ⟨10, 20⟩
    refresh_button := ⟨30, 40⟩
    hsv_ranges := [⟨(0, 120, 80), (10, 255, 255)⟩]
    timing := sampleTiming }

/-- Model of `ScreenGrabber._bounded_region` (detection.py lines 46-53): clamp the
requested region against the configured monitor, with a floor of 1 on width
and height.  The returned dict `{left, top, width, height}` is modelled as a
`Region`. -/
def bounded_region (monitor region : Region) : Region :=
  let left := max monitor.left region.left
  let top := max monitor.top region.top
  let right := min (monitor.left + monitor.width) (region.left + region.width)
  let bottom := min (monitor.top + monitor.height) (region.top + region.height)
  { left := left, top := top,
    width := max 1 (right - left), height := max 1 (bottom - top) }

/-- Region `r` lies entirely within monitor `m`. -/
def insideMonitor (m r : Region) : Prop :=
  m.left ≤ r.left ∧ m.top ≤ r.top ∧
  r.left + r.width ≤ m.left + m.width ∧ r.top + r.height ≤ m.top + m.height

instance (m r : Region) : Decidable (insideMonitor m r) := by
  unfold insideMonitor
  infer_instance

/-- A grayscale matrix (`np.ndarray` of dtype uint8), as a list of rows. -/
abbrev Mat : Type := List (List ℕ)

/-- The `shape[0]` (row count) of a matrix. -/
def Mat.rows (m : Mat) : ℕ := m.length

/-- The `shape[1]` (column count) of a matrix. -/
def Mat.cols (m : Mat) : ℕ := (m.head?.getD []).length

/-- The `max_val` component of `cv2.minMaxLoc(res)`, where `res` is the
correlation response listed over all template offsets (nonempty whenever the
frame is at least as large as the template in both dimensions). -/
def maxValQ : List ℚ → ℚ
  | [] => 0
  | x :: xs => xs.foldl max x

/-- The scoring half of `TemplateMatcher.match` (detection.py lines 98-104),
after the template has been loaded: skip with `(False, 0.0)` when the
grayscale frame is smaller than the template in either dimension, else take
the maximum of the normalized cross-correlation response and compare it to
the threshold.  The response of `cv2.matchTemplate(frame, template,
cv2.TM_CCOEFF_NORMED)` is an external computation, passed in as `ncc`
(its values listed over all offsets); `cv2.cvtColor(BGR2GRAY)` is a
per-pixel, shape-preserving map, so the grayscale frame is taken as
input directly. -/
def matchLoaded (ncc : Mat → Mat → List ℚ) (frame_gray template : Mat)
    (threshold : ℚ) : Bool × ℚ :=
  if frame_gray.rows < template.rows || frame_gray.cols < template.cols then
    (false, 0)
  else
    let maxVal := maxValQ (ncc frame_gray template)
    (decide (threshold ≤ maxVal), maxVal)

/-- Model of `config_loader.TemplateConfig`. -/
structure TemplateConfig where
  name : String
  path : String
  threshold : ℚ
deriving DecidableEq

/-- The filesystem facts `TemplateMatcher._load_template` consults:
`config.path.exists()` and `cv2.imread` (which returns `None` on an
undecodable file). -/
structure FileSystem where
  pathExists : String → Bool
  imread : String → Option Mat

/-- The exceptions `_load_template` can raise (`KeyError`,
`FileNotFoundError`, `RuntimeError`) — the spec's `TemplateLoadError`
taxonomy. -/
inductive TemplateLoadError where
  | keyError (name : String)
  | fileNotFound (path : String)
  | loadFailed (path : String)
deriving DecidableEq

/-- Model of `TemplateMatcher._cache`: name ↦ (decoded image, threshold), newest entry
first. -/
abbrev TemplateCache : Type := List (String × Mat × ℚ)

/-- Model of `TemplateMatcher._load_template` (detection.py lines 82-94), with the
cache passed and returned explicitly: unknown name raises; a cached name
returns the cached entry; otherwise the file is checked, decoded, and the
result inserted into the cache.  An error leaves the caller's cache as it
was (the state is returned only on success). -/
def load_template (templates : String → Option TemplateConfig)
    (fs : FileSystem) (cache : TemplateCache) (name : String) :
    Except TemplateLoadError (TemplateCache × Mat × ℚ) :=
  match templates name with
  | none => Except.error (.keyError name)
  | some config =>
    match cache.lookup name with
    | some entry => Except.ok (cache, entry)
    | none =>
      if !fs.pathExists config.path then
        Except.error (.fileNotFound config.path)
      else
        match fs.imread config.path with
        | none => Except.error (.loadFailed config.path)
        | some image =>
          Except.ok ((name, image, config.threshold) :: cache, image,
            config.threshold)

/-- Model of `TemplateMatcher.match` (detection.py lines 96-104): load (or fetch from
cache) the template, then score it against the grayscale frame; a load
failure propagates. -/
def template_match (templates : String → Option TemplateConfig)
    (fs : FileSystem) (ncc : Mat → Mat → List ℚ) (cache : TemplateCache)
    (frame_gray : Mat) (name : String) :
    Except TemplateLoadError (TemplateCache × Bool × ℚ) :=
  match load_template templates fs cache name with
  | Except.error e => Except.error e
  | Except.ok (cache2, template, threshold) =>
    Except.ok (cache2, matchLoaded ncc frame_gray template threshold)

/-- The neutral `TradeStatus` substituted by `DetectionManager.evaluate_all`
when evaluating one trade raises (detection.py lines 156-163). -/
def neutral_status (name : String) : TradeStatus :=
  { name := name, red_ratio := 0, has_red_gem := false, start_active := none,
    start_disabled := none, template_score := none }

/-- Model of `DetectionManager.evaluate_all` (detection.py lines 149-165): evaluate
each configured trade in order, substituting the neutral status whenever the
per-trade evaluation fails.  The per-trade evaluation (screen capture plus
detection, any exception it may raise abstracted as `Except.error`) is
passed in as `evalTrade`. -/
def evaluate_all (evalTrade : TradeConfig → Except String TradeStatus) :
    List TradeConfig → List TradeStatus
  | [] => []
  | trade :: rest =>
    (match evalTrade trade with
      | Except.ok status => status
      | Except.error _ => neutral_status trade.name) :: evaluate_all evalTrade rest

/-- Fixture: a template table holding one template named `start`. -/
def sampleTemplates : String → Option TemplateConfig := fun n =>
  if n = "start" then some ⟨"start", "templates/start.png", 4/5⟩ else none

/-- Fixture: a filesystem on which the template file decodes to a 1×1
image. -/
def sampleFS : FileSystem :=
  { pathExists := fun _ => true, imread := fun _ => some [[7]] }

/-- Fixture: a filesystem on which the template file is missing. -/
def sampleFSMissing : FileSystem :=
  { pathExists := fun _ => false, imread := fun _ => none }

/-- Fixture: a concrete correlation response. -/
def sampleNcc : Mat → Mat → List ℚ := fun _ _ => [1/2, 9/10]

/-- Fixture: a 2×2 grayscale frame. -/
def sampleFrame : Mat := [[1, 2], [3, 4]]

/-- Fixture: a trade whose evaluation will fail. -/
def sampleTradeA : TradeConfig :=
  ⟨"a", ⟨0, 0, 10, 10⟩, ⟨1, 1⟩, none, none, 1/100⟩

/-- Fixture: a trade whose evaluation succeeds. -/
def sampleTradeB : TradeConfig :=
  ⟨"b", ⟨20, 0, 10, 10⟩, ⟨2, 2⟩, none, none, 1/100⟩

/-- Fixture: a per-trade evaluator that raises on trade `a` and succeeds on
any other trade. -/
def sampleEval : TradeConfig → Except String TradeStatus := fun t =>
  if t.name = "a" then Except.error "CaptureError"
  else Except.ok ⟨t.name, 1/10, true, none, none, none⟩

theorem foldl_or_eq_any (rs : List HSVRange) (p : HSV) (b : Bool) :
    rs.foldl (fun acc r => acc || inRange r.lower r.upper p) b = (b || maskPixel rs p) := by
  induction rs generalizing b with
  | nil => simp [maskPixel]
  | cons r rs ih =>
      simp only [List.foldl_cons, ih, maskPixel, List.any_cons, Bool.or_assoc]

theorem foldl_mask_nil (rs : List HSVRange) :
    rs.foldl (fun m r => bitwiseOr m (rangeMask r ([] : List HSV))) [] = [] := by
  induction rs with
  | nil => rfl
  | cons r rs ih => simpa [bitwiseOr, rangeMask] using ih

theorem foldl_mask_cons (rs : List HSVRange) (p : HSV) (ps : List HSV)
    (b : Bool) (bs : List Bool) :
    rs.foldl (fun m r => bitwiseOr m (rangeMask r (p :: ps))) (b :: bs)
      = (rs.foldl (fun acc r => acc || inRange r.lower r.upper p) b)
        :: rs.foldl (fun m r => bitwiseOr m (rangeMask r ps)) bs := by
  induction rs generalizing b bs with
  | nil => rfl
  | cons r rs ih =>
      simp only [List.foldl_cons, rangeMask, List.map_cons, bitwiseOr,
        List.zipWith_cons_cons]
      exact ih _ _

/-- The loop of `red_ratio` computes exactly the per-pixel union mask. -/
theorem redMask_eq_map (rs : List HSVRange) (img : List HSV) :
    redMask rs img = img.map (maskPixel rs) := by
  induction img with
  | nil => simpa [redMask, zerosMask] using foldl_mask_nil rs
  | cons p ps ih =>
      simp only [redMask, zerosMask, List.map_cons] at ih ⊢
      rw [foldl_mask_cons, foldl_or_eq_any, ih, Bool.false_or]

theorem countNonzero_map (f : HSV → Bool) (img : List HSV) :
    countNonzero (img.map f) = img.countP f := by
  induction img with
  | nil => rfl
  | cons p ps ih =>
      by_cases h : f p <;>
        simp [countNonzero, List.count_cons, List.countP_cons, h] at ih ⊢ <;>
        omega

/-- Closed form of `red_ratio` on a nonempty image. -/
theorem red_ratio_eq_countP (rs : List HSVRange) (img : List HSV) (h : img ≠ []) :
    red_ratio rs img = Except.ok ((img.countP (maskPixel rs) : ℚ) / (img.length : ℚ)) := by
  have hlen : (redMask rs img).length = img.length := by
    rw [redMask_eq_map, List.length_map]
  have hne : img.length ≠ 0 := fun hc => h (List.eq_nil_of_length_eq_zero hc)
  simp only [red_ratio, hlen, hne, if_false]
  rw [redMask_eq_map, countNonzero_map]

/-- The union mask over a concatenated range list is the pointwise OR of the
two union masks. -/
theorem maskPixel_append (A B : List HSVRange) (p : HSV) :
    maskPixel (A ++ B) p = (maskPixel A p || maskPixel B p) := by
  simp [maskPixel, List.any_append]

/-- C3: for every image `red_ratio` yields a value in `[0,1]`, but on an
empty image (zero pixels) the code raises a division-by-zero style error
instead of returning `0.0`: `mask.size` is `0` and the final
`float(count) / float(size)` division has a zero divisor (the
`cv2.cvtColor` call already rejects the empty input before that point). -/
theorem red_ratio_bounds_and_empty_raises :
    (∀ (rs : List HSVRange) (img : List HSV), img ≠ [] →
      ∃ q : ℚ, red_ratio rs img = Except.ok q ∧ 0 ≤ q ∧ q ≤ 1) ∧
    (∀ rs : List HSVRange, red_ratio rs [] = Except.error "float division by zero") := by
  constructor
  · intro rs img h
    have hpos : (0 : ℚ) < img.length := by
      exact_mod_cast List.length_pos.mpr h
    refine ⟨_, red_ratio_eq_countP rs img h, ?_, ?_⟩
    · exact div_nonneg (Nat.cast_nonneg _) (Nat.cast_nonneg _)
    · exact (div_le_one hpos).mpr (by exact_mod_cast List.countP_le_length (maskPixel rs))
  · intro rs
    simp [red_ratio, redMask_eq_map]

theorem red_ratio_bounds_and_empty_raises_witness :
    ([((0 : ℕ), 0, 0)] : List HSV) ≠ [] ∧
    ∃ q : ℚ, red_ratio [] [((0 : ℕ), 0, 0)] = Except.ok q ∧ 0 ≤ q ∧ q ≤ 1 :=
  ⟨by decide, red_ratio_bounds_and_empty_raises.1 [] [((0 : ℕ), 0, 0)] (by decide)⟩

/-- C8: on any nonempty image, the ratio over a concatenated range list
`A ++ B` is at least `max (ratio A) (ratio B)` — the mask is the union of the
per-range masks, counting each pixel once — and equals that maximum when the
two masks fully overlap (agree on every pixel of the image). -/
theorem red_ratio_union_monotone (A B : List HSVRange) (img : List HSV)
    (h : img ≠ []) :
    ∃ qAB qA qB : ℚ,
      red_ratio (A ++ B) img = Except.ok qAB ∧
      red_ratio A img = Except.ok qA ∧
      red_ratio B img = Except.ok qB ∧
      max qA qB ≤ qAB ∧
      ((∀ p ∈ img, maskPixel A p = maskPixel B p) → qAB = max qA qB) := by
  have hpos : (0 : ℚ) < img.length := by
    exact_mod_cast List.length_pos.mpr h
  refine ⟨_, _, _, red_ratio_eq_countP _ _ h, red_ratio_eq_countP _ _ h,
    red_ratio_eq_countP _ _ h, ?_, ?_⟩
  · apply max_le
    · apply (div_le_div_iff_of_pos_right hpos).mpr
      apply Nat.cast_le.mpr
      apply List.countP_mono_left
      intro p _ hA
      simp [maskPixel_append, hA]
    · apply (div_le_div_iff_of_pos_right hpos).mpr
      apply Nat.cast_le.mpr
      apply List.countP_mono_left
      intro p _ hB
      simp [maskPixel_append, hB]
  · intro hcong
    have hAB : img.countP (maskPixel (A ++ B)) = img.countP (maskPixel A) := by
      apply List.countP_congr
      intro p hp
      rw [maskPixel_append, ← hcong p hp, Bool.or_self]
    have hBA : img.countP (maskPixel B) = img.countP (maskPixel A) := by
      apply List.countP_congr
      intro p hp
      rw [← hcong p hp]
    rw [hAB, hBA, max_self]

theorem red_ratio_union_monotone_witness :
    ([((5 : ℕ), 5, 5)] : List HSV) ≠ [] ∧
    ∃ qAB qA qB : ℚ,
      red_ratio ([⟨(0, 0, 0), (9, 9, 9)⟩] ++ [⟨(3, 3, 3), (9, 9, 9)⟩]) [((5 : ℕ), 5, 5)]
        = Except.ok qAB ∧
      red_ratio [⟨(0, 0, 0), (9, 9, 9)⟩] [((5 : ℕ), 5, 5)] = Except.ok qA ∧
      red_ratio [⟨(3, 3, 3), (9, 9, 9)⟩] [((5 : ℕ), 5, 5)] = Except.ok qB ∧
      max qA qB ≤ qAB ∧
      ((∀ p ∈ ([((5 : ℕ), 5, 5)] : List HSV),
          maskPixel [⟨(0, 0, 0), (9, 9, 9)⟩] p = maskPixel [⟨(3, 3, 3), (9, 9, 9)⟩] p) →
        qAB = max qA qB) :=
  ⟨by decide,
    red_ratio_union_monotone [⟨(0, 0, 0), (9, 9, 9)⟩] [⟨(3, 3, 3), (9, 9, 9)⟩]
      [((5 : ℕ), 5, 5)] (by decide)⟩

theorem getD_true_iff (o : Option Bool) :
    o.getD true = true ↔ (o = none ∨ o = some true) := by
  cases o <;> simp

/-- Full characterisation of the trade-trigger loop: the click sequence is the
in-order filter of the trade/status pairs by the trigger condition, and the
`any_click` flag is set exactly when that sequence is nonempty. -/
theorem handle_trades_go_spec (ps : List (TradeConfig × TradeStatus)) :
    (handle_trades_go ps).1
      = ps.filterMap (fun p =>
          if p.2.has_red_gem = true ∧
              (p.2.start_active = none ∨ p.2.start_active = some true)
          then some p.1.start_button else none) ∧
    ((handle_trades_go ps).2 = true ↔ (handle_trades_go ps).1 ≠ []) := by
  induction ps with
  | nil => simp [handle_trades_go]
  | cons p rest ih =>
      obtain ⟨t, s⟩ := p
      by_cases hb : (s.has_red_gem && s.start_active.getD true) = true
      · have hcond : s.has_red_gem = true ∧
            (s.start_active = none ∨ s.start_active = some true) := by
          rw [Bool.and_eq_true, getD_true_iff] at hb
          exact hb
        rw [Bool.and_eq_true] at hb
        simp [handle_trades_go, hb.1, hb.2, List.filterMap_cons, hcond, ih.1]
      · have hcond : ¬(s.has_red_gem = true ∧
            (s.start_active = none ∨ s.start_active = some true)) := by
          rw [Bool.and_eq_true, getD_true_iff] at hb
          exact hb
        simp only [handle_trades_go, hb, if_false, List.filterMap_cons]
        rw [if_neg hcond]
        exact ⟨ih.1, ih.2⟩

/-- C2: in the trade-trigger step, the clicks issued are exactly one click at
the start button of each trade (in configuration order, paired with its
status) whose status has `has_red_gem` true and whose `start_active` flag is
unset (`none`) or `true`; a trade with `start_active = some false`
contributes no click; and the step reports a click iff at least one click
occurred. -/
theorem handle_trades_spec (trades : List TradeConfig) (statuses : List TradeStatus) :
    (handle_trades trades statuses).1
      = (trades.zip statuses).filterMap (fun p =>
          if p.2.has_red_gem = true ∧
              (p.2.start_active = none ∨ p.2.start_active = some true)
          then some p.1.start_button else none) ∧
    ((handle_trades trades statuses).2 = true ↔ (handle_trades trades statuses).1 ≠ []) :=
  handle_trades_go_spec (trades.zip statuses)

theorem no_red_iff (statuses : List TradeStatus) :
    (!statuses.any (·.has_red_gem)) = true ↔ ∀ s ∈ statuses, s.has_red_gem = false := by
  simp [List.any_eq_false]

theorem all_disabled_iff (statuses : List TradeStatus) :
    (decide (0 < (statuses.filterMap (·.start_disabled)).length) &&
        (statuses.filterMap (·.start_disabled)).all id) = true ↔
      ((∃ s ∈ statuses, s.start_disabled ≠ none) ∧
        ∀ s ∈ statuses, ∀ b, s.start_disabled = some b → b = true) := by
  rw [Bool.and_eq_true, decide_eq_true_iff, List.length_pos]
  constructor
  · rintro ⟨hne, hall⟩
    rw [List.all_eq_true] at hall
    constructor
    · rcases List.exists_mem_of_ne_nil _ hne with ⟨b, hb⟩
      rcases List.mem_filterMap.mp hb with ⟨s, hs, hsb⟩
      exact ⟨s, hs, by simp [hsb]⟩
    · intro s hs b hsb
      exact hall b (List.mem_filterMap.mpr ⟨s, hs, hsb⟩)
  · rintro ⟨⟨s, hs, hne⟩, hall⟩
    constructor
    · rcases Option.ne_none_iff_exists'.mp hne with ⟨b, hb⟩
      exact fun hnil => List.not_mem_nil _
        (hnil ▸ List.mem_filterMap.mpr ⟨s, hs, hb⟩)
    · rw [List.all_eq_true]
      intro b hb
      rcases List.mem_filterMap.mp hb with ⟨s', hs', hsb⟩
      exact hall s' hs' b hsb

/-- The refresh step clicks exactly when `click_performed` is unset and one of
the three refresh conditions holds (with the interval condition requiring a
positive configured interval, as in `refresh_due`). -/
theorem handle_refresh_clicks_iff (timing : TimingConfig) (refresh_button : Point)
    (now last : ℚ) (statuses : List TradeStatus) (click_performed : Bool) :
    (handle_refresh timing refresh_button now last statuses click_performed).1 ≠ [] ↔
      (click_performed = false ∧
        ((∀ s ∈ statuses, s.has_red_gem = false) ∨
          ((∃ s ∈ statuses, s.start_disabled ≠ none) ∧
            ∀ s ∈ statuses, ∀ b, s.start_disabled = some b → b = true) ∨
          (0 < timing.refresh_interval ∧ timing.refresh_interval ≤ now - last))) := by
  unfold handle_refresh
  dsimp only
  split
  case isTrue h =>
    rw [Bool.and_eq_true, Bool.or_eq_true, Bool.or_eq_true] at h
    simp only [ne_eq, List.cons_ne_self, not_false_eq_true, true_iff]
    obtain ⟨hcond, hcp⟩ := h
    refine ⟨by simpa using hcp, ?_⟩
    rcases hcond with hcond | hdue
    · rcases hcond with hnr | had
      · exact Or.inl ((no_red_iff statuses).mp hnr)
      · exact Or.inr (Or.inl ((all_disabled_iff statuses).mp had))
    · rw [Bool.and_eq_true, decide_eq_true_iff, decide_eq_true_iff] at hdue
      exact Or.inr (Or.inr hdue)
  case isFalse h =>
    simp only [ne_eq, not_true_eq_false, false_iff, not_and, not_not]
    intro hcp hcond
    exfalso
    apply h
    rw [Bool.and_eq_true]
    refine ⟨?_, by simp [hcp]⟩
    rw [Bool.or_eq_true, Bool.or_eq_true]
    rcases hcond with hnr | had | hdue
    · exact Or.inl (Or.inl ((no_red_iff statuses).mpr hnr))
    · exact Or.inl (Or.inr ((all_disabled_iff statuses).mpr had))
    · exact Or.inr (by
        rw [Bool.and_eq_true, decide_eq_true_iff, decide_eq_true_iff]
        exact hdue)

theorem click_performed_false_iff (trades : List TradeConfig)
    (statuses : List TradeStatus) :
    (handle_trades trades statuses).2 = false ↔
      (handle_trades trades statuses).1 = [] := by
  have h2 : (handle_trades trades statuses).2 = true ↔
      (handle_trades trades statuses).1 ≠ [] :=
    (handle_trades_go_spec (trades.zip statuses)).2
  constructor
  · intro hb
    by_contra hl
    rw [h2.mpr hl] at hb
    exact Bool.noConfusion hb
  · intro hl
    exact Bool.eq_false_iff.mpr fun hb => (h2.mp hb) hl

/-- C1: in any decision-loop cycle (with a positive configured refresh
interval), a refresh click occurs iff the trade step performed no click AND
at least one of (a) no status shows its threshold exceeded, (b) at least one
status reports a disabled flag and every reported disabled flag is true,
(c) the refresh interval has elapsed since the last refresh click; in
particular a cycle with a trade click never refreshes, regardless of elapsed
refresh time. -/
theorem refresh_trigger_spec (cfg : AppConfig) (statuses : List TradeStatus)
    (now_collect now_refresh : ℚ) (st : EngineState)
    (hpos : 0 < cfg.timing.refresh_interval) :
    ((run_cycle cfg statuses now_collect now_refresh st).refresh_clicks ≠ [] ↔
      ((run_cycle cfg statuses now_collect now_refresh st).trade_clicks = [] ∧
        ((∀ s ∈ statuses, s.has_red_gem = false) ∨
          ((∃ s ∈ statuses, s.start_disabled ≠ none) ∧
            ∀ s ∈ statuses, ∀ b, s.start_disabled = some b → b = true) ∨
          cfg.timing.refresh_interval ≤ now_refresh - st.last_refresh_ts))) ∧
    ((run_cycle cfg statuses now_collect now_refresh st).trade_clicks ≠ [] →
      (run_cycle cfg statuses now_collect now_refresh st).refresh_clicks = []) := by
  have e1 : (run_cycle cfg statuses now_collect now_refresh st).refresh_clicks
      = (handle_refresh cfg.timing cfg.refresh_button now_refresh
          st.last_refresh_ts statuses (handle_trades cfg.trades statuses).2).1 := rfl
  have e2 : (run_cycle cfg statuses now_collect now_refresh st).trade_clicks
      = (handle_trades cfg.trades statuses).1 := rfl
  have key := handle_refresh_clicks_iff cfg.timing cfg.refresh_button now_refresh
    st.last_refresh_ts statuses (handle_trades cfg.trades statuses).2
  constructor
  · rw [e1, e2, key, click_performed_false_iff]
    simp [hpos]
  · intro htc
    rw [e2] at htc
    rw [e1]
    by_contra hne
    exact htc ((click_performed_false_iff cfg.trades statuses).mp (key.mp hne).1)

theorem refresh_trigger_spec_witness :
    (0 : ℚ) < sampleConfig.timing.refresh_interval ∧
    (((run_cycle sampleConfig [] 0 100 EngineState.init).refresh_clicks ≠ [] ↔
      ((run_cycle sampleConfig [] 0 100 EngineState.init).trade_clicks = [] ∧
        ((∀ s ∈ ([] : List TradeStatus), s.has_red_gem = false) ∨
          ((∃ s ∈ ([] : List TradeStatus), s.start_disabled ≠ none) ∧
            ∀ s ∈ ([] : List TradeStatus), ∀ b, s.start_disabled = some b → b = true) ∨
          sampleConfig.timing.refresh_interval ≤ 100 - EngineState.init.last_refresh_ts))) ∧
    ((run_cycle sampleConfig [] 0 100 EngineState.init).trade_clicks ≠ [] →
      (run_cycle sampleConfig [] 0 100 EngineState.init).refresh_clicks = [])) :=
  ⟨by norm_num [sampleConfig, sampleTiming],
    refresh_trigger_spec sampleConfig [] 0 100 EngineState.init
      (by norm_num [sampleConfig, sampleTiming])⟩

/-- C9: the collect trigger is independent of the statuses (hence of whether
a trade click occurred this cycle); an interval ≤ 0 disables it; with a
positive interval it clicks exactly once and advances the timestamp to `now`
when the interval has elapsed, and otherwise does nothing and leaves the
timestamp unchanged. -/
theorem collect_trigger_spec (cfg : AppConfig) (statuses other : List TradeStatus)
    (now_collect now_refresh : ℚ) (st : EngineState) :
    ((run_cycle cfg statuses now_collect now_refresh st).collect_clicks
        = (run_cycle cfg other now_collect now_refresh st).collect_clicks ∧
      (run_cycle cfg statuses now_collect now_refresh st).state.last_collect_ts
        = (run_cycle cfg other now_collect now_refresh st).state.last_collect_ts) ∧
    (cfg.timing.collect_interval ≤ 0 →
      (run_cycle cfg statuses now_collect now_refresh st).collect_clicks = [] ∧
      (run_cycle cfg statuses now_collect now_refresh st).state.last_collect_ts
        = st.last_collect_ts) ∧
    (0 < cfg.timing.collect_interval →
      cfg.timing.collect_interval ≤ now_collect - st.last_collect_ts →
      (run_cycle cfg statuses now_collect now_refresh st).collect_clicks
          = [cfg.collect_button] ∧
      (run_cycle cfg statuses now_collect now_refresh st).state.last_collect_ts
        = now_collect) ∧
    (0 < cfg.timing.collect_interval →
      now_collect - st.last_collect_ts < cfg.timing.collect_interval →
      (run_cycle cfg statuses now_collect now_refresh st).collect_clicks = [] ∧
      (run_cycle cfg statuses now_collect now_refresh st).state.last_collect_ts
        = st.last_collect_ts) := by
  have e : ∀ sts : List TradeStatus,
      (run_cycle cfg sts now_collect now_refresh st).collect_clicks
        = (handle_collect cfg.timing cfg.collect_button now_collect st.last_collect_ts).1 ∧
      (run_cycle cfg sts now_collect now_refresh st).state.last_collect_ts
        = (handle_collect cfg.timing cfg.collect_button now_collect st.last_collect_ts).2 :=
    fun _ => ⟨rfl, rfl⟩
  refine ⟨⟨by rw [(e statuses).1, (e other).1], by rw [(e statuses).2, (e other).2]⟩,
    ?_, ?_, ?_⟩
  · intro h
    rw [(e statuses).1, (e statuses).2]
    simp [handle_collect, h]
  · intro h0 hel
    rw [(e statuses).1, (e statuses).2]
    simp [handle_collect, not_le.mpr h0, hel]
  · intro h0 hlt
    rw [(e statuses).1, (e statuses).2]
    simp [handle_collect, not_le.mpr h0, not_le.mpr hlt]

theorem collect_trigger_spec_witness :
    (0 : ℚ) < sampleConfig.timing.collect_interval ∧
    sampleConfig.timing.collect_interval ≤ 200 - EngineState.init.last_collect_ts ∧
    (run_cycle sampleConfig [] 200 0 EngineState.init).collect_clicks
      = [sampleConfig.collect_button] ∧
    (run_cycle sampleConfig [] 200 0 EngineState.init).state.last_collect_ts = 200 := by
  have k := (collect_trigger_spec sampleConfig [] [] 200 0 EngineState.init).2.2.1
    (by norm_num [sampleConfig, sampleTiming])
    (by norm_num [sampleConfig, sampleTiming, EngineState.init])
  exact ⟨by norm_num [sampleConfig, sampleTiming],
    by norm_num [sampleConfig, sampleTiming, EngineState.init], k.1, k.2⟩

/-- C10: both timer timestamps start at `0.0`, so on the first cycle after
construction, with the wall clock beyond both (positive) intervals, the
collect trigger fires immediately and — absent a trade click — the refresh
trigger fires as well, rather than waiting a full interval. -/
theorem init_first_cycle_spec (cfg : AppConfig) (statuses : List TradeStatus)
    (now_collect now_refresh : ℚ)
    (hc : 0 < cfg.timing.collect_interval)
    (hcn : cfg.timing.collect_interval < now_collect)
    (hr : 0 < cfg.timing.refresh_interval)
    (hrn : cfg.timing.refresh_interval < now_refresh) :
    EngineState.init.last_collect_ts = 0 ∧
    EngineState.init.last_refresh_ts = 0 ∧
    (run_cycle cfg statuses now_collect now_refresh EngineState.init).collect_clicks
      = [cfg.collect_button] ∧
    (run_cycle cfg statuses now_collect now_refresh EngineState.init).state.last_collect_ts
      = now_collect ∧
    ((run_cycle cfg statuses now_collect now_refresh EngineState.init).trade_clicks = [] →
      (run_cycle cfg statuses now_collect now_refresh EngineState.init).refresh_clicks
        = [cfg.refresh_button]) := by
  have ec : (run_cycle cfg statuses now_collect now_refresh EngineState.init).collect_clicks
      = (handle_collect cfg.timing cfg.collect_button now_collect
          EngineState.init.last_collect_ts).1 := rfl
  have ec2 : (run_cycle cfg statuses now_collect now_refresh EngineState.init).state.last_collect_ts
      = (handle_collect cfg.timing cfg.collect_button now_collect
          EngineState.init.last_collect_ts).2 := rfl
  have e2 : (run_cycle cfg statuses now_collect now_refresh EngineState.init).trade_clicks
      = (handle_trades cfg.trades statuses).1 := rfl
  have e3 : (run_cycle cfg statuses now_collect now_refresh EngineState.init).refresh_clicks
      = (handle_refresh cfg.timing cfg.refresh_button now_refresh
          EngineState.init.last_refresh_ts statuses
          (handle_trades cfg.trades statuses).2).1 := rfl
  have hcel : cfg.timing.collect_interval
      ≤ now_collect - EngineState.init.last_collect_ts := by
    simpa [EngineState.init] using hcn.le
  refine ⟨rfl, rfl, ?_, ?_, ?_⟩
  · rw [ec]; simp [handle_collect, not_le.mpr hc, hcel]
  · rw [ec2]; simp [handle_collect, not_le.mpr hc, hcel]
  · intro htc
    rw [e2] at htc
    have hcp : (handle_trades cfg.trades statuses).2 = false :=
      (click_performed_false_iff cfg.trades statuses).mpr htc
    have hrel : cfg.timing.refresh_interval
        ≤ now_refresh - EngineState.init.last_refresh_ts := by
      simpa [EngineState.init] using hrn.le
    rw [e3]
    simp [handle_refresh, hcp, hr, hrel]

theorem init_first_cycle_spec_witness :
    ((0 : ℚ) < sampleConfig.timing.collect_interval ∧
      sampleConfig.timing.collect_interval < 200 ∧
      (0 : ℚ) < sampleConfig.timing.refresh_interval ∧
      sampleConfig.timing.refresh_interval < 100) ∧
    (EngineState.init.last_collect_ts = 0 ∧
      EngineState.init.last_refresh_ts = 0 ∧
      (run_cycle sampleConfig [] 200 100 EngineState.init).collect_clicks
        = [sampleConfig.collect_button] ∧
      (run_cycle sampleConfig [] 200 100 EngineState.init).state.last_collect_ts = 200 ∧
      ((run_cycle sampleConfig [] 200 100 EngineState.init).trade_clicks = [] →
        (run_cycle sampleConfig [] 200 100 EngineState.init).refresh_clicks
          = [sampleConfig.refresh_button])) :=
  ⟨⟨by norm_num [sampleConfig, sampleTiming], by norm_num [sampleConfig, sampleTiming],
      by norm_num [sampleConfig, sampleTiming], by norm_num [sampleConfig, sampleTiming]⟩,
    init_first_cycle_spec sampleConfig [] 200 100
      (by norm_num [sampleConfig, sampleTiming]) (by norm_num [sampleConfig, sampleTiming])
      (by norm_num [sampleConfig, sampleTiming]) (by norm_num [sampleConfig, sampleTiming])⟩

/-- C4 counterexample: a requested region wholly beyond the monitor's right
and bottom edges is clamped to a 1×1 region at the request's own corner,
which lies outside the monitor — the clamp only bounds `left`/`top` from
below. -/
theorem bounded_region_counterexample :
    bounded_region ⟨0, 0, 100, 100⟩ ⟨200, 200, 10, 10⟩ = ⟨200, 200, 1, 1⟩ ∧
    ¬ insideMonitor ⟨0, 0, 100, 100⟩
        (bounded_region ⟨0, 0, 100, 100⟩ ⟨200, 200, 10, 10⟩) := by
  constructor <;> decide

/-- C4 (amended): for valid monitor and request rectangles (positive sizes),
the clamped region always has width ≥ 1 and height ≥ 1 and `left`/`top` at
least the monitor's; and whenever the request genuinely intersects the
monitor on both axes, the clamped region lies entirely within the monitor.
A request disjoint from the monitor on some axis degenerates to size 1 on
that axis but may lie outside the monitor (see the counterexample). -/
theorem bounded_region_amended (m r : Region)
    (hmw : 1 ≤ m.width) (hmh : 1 ≤ m.height)
    (hrw : 1 ≤ r.width) (hrh : 1 ≤ r.height) :
    (1 ≤ (bounded_region m r).width ∧ 1 ≤ (bounded_region m r).height ∧
      m.left ≤ (bounded_region m r).left ∧ m.top ≤ (bounded_region m r).top) ∧
    (r.left < m.left + m.width → m.left < r.left + r.width →
      r.top < m.top + m.height → m.top < r.top + r.height →
      insideMonitor m (bounded_region m r)) := by
  unfold bounded_region insideMonitor
  dsimp only
  refine ⟨⟨?_, ?_, ?_, ?_⟩, fun h1 h2 h3 h4 => ⟨?_, ?_, ?_, ?_⟩⟩ <;> omega

theorem bounded_region_amended_witness :
    ((1 : ℤ) ≤ (⟨0, 0, 100, 100⟩ : Region).width ∧
      (1 : ℤ) ≤ (⟨0, 0, 100, 100⟩ : Region).height ∧
      (1 : ℤ) ≤ (⟨50, 50, 100, 100⟩ : Region).width ∧
      (1 : ℤ) ≤ (⟨50, 50, 100, 100⟩ : Region).height) ∧
    ((1 ≤ (bounded_region ⟨0, 0, 100, 100⟩ ⟨50, 50, 100, 100⟩).width ∧
      1 ≤ (bounded_region ⟨0, 0, 100, 100⟩ ⟨50, 50, 100, 100⟩).height ∧
      (⟨0, 0, 100, 100⟩ : Region).left
        ≤ (bounded_region ⟨0, 0, 100, 100⟩ ⟨50, 50, 100, 100⟩).left ∧
      (⟨0, 0, 100, 100⟩ : Region).top
        ≤ (bounded_region ⟨0, 0, 100, 100⟩ ⟨50, 50, 100, 100⟩).top) ∧
    ((⟨50, 50, 100, 100⟩ : Region).left
        < (⟨0, 0, 100, 100⟩ : Region).left + (⟨0, 0, 100, 100⟩ : Region).width →
      (⟨0, 0, 100, 100⟩ : Region).left
        < (⟨50, 50, 100, 100⟩ : Region).left + (⟨50, 50, 100, 100⟩ : Region).width →
      (⟨50, 50, 100, 100⟩ : Region).top
        < (⟨0, 0, 100, 100⟩ : Region).top + (⟨0, 0, 100, 100⟩ : Region).height →
      (⟨0, 0, 100, 100⟩ : Region).top
        < (⟨50, 50, 100, 100⟩ : Region).top + (⟨50, 50, 100, 100⟩ : Region).height →
      insideMonitor ⟨0, 0, 100, 100⟩
        (bounded_region ⟨0, 0, 100, 100⟩ ⟨50, 50, 100, 100⟩))) :=
  ⟨by decide,
    bounded_region_amended ⟨0, 0, 100, 100⟩ ⟨50, 50, 100, 100⟩
      (by decide) (by decide) (by decide) (by decide)⟩

theorem foldl_max_le (xs : List ℚ) (a : ℚ) :
    a ≤ xs.foldl max a ∧ ∀ v ∈ xs, v ≤ xs.foldl max a := by
  induction xs generalizing a with
  | nil => exact ⟨le_refl a, by simp⟩
  | cons x xs ih =>
      have h := ih (max a x)
      rw [List.foldl_cons]
      refine ⟨le_trans (le_max_left a x) h.1, ?_⟩
      intro v hv
      rcases List.mem_cons.mp hv with hvx | hvs
      · rw [hvx]
        exact le_trans (le_max_right a x) h.1
      · exact h.2 v hvs

theorem foldl_max_mem (xs : List ℚ) (a : ℚ) :
    xs.foldl max a = a ∨ xs.foldl max a ∈ xs := by
  induction xs generalizing a with
  | nil => exact Or.inl rfl
  | cons x xs ih =>
      rw [List.foldl_cons]
      rcases ih (max a x) with h | h
      · rcases max_choice a x with hm | hm
        · exact Or.inl (h.trans hm)
        · right
          rw [h, hm]
          exact List.mem_cons_self x xs
      · exact Or.inr (List.mem_cons_of_mem x h)

theorem maxValQ_mem (res : List ℚ) (h : res ≠ []) : maxValQ res ∈ res := by
  cases res with
  | nil => exact absurd rfl h
  | cons x xs =>
      rcases foldl_max_mem xs x with hm | hm
      · rw [maxValQ, hm]; exact List.mem_cons_self x xs
      · exact List.mem_cons_of_mem x hm

theorem maxValQ_ub (res : List ℚ) (v : ℚ) (hv : v ∈ res) : v ≤ maxValQ res := by
  cases res with
  | nil => cases hv
  | cons x xs =>
      rcases List.mem_cons.mp hv with h | h
      · exact h ▸ (foldl_max_le xs x).1
      · exact (foldl_max_le xs x).2 v h

/-- C5: once the template is loadable (the load step returns the decoded
template and threshold), matching a frame smaller than the template in
either dimension yields `(false, 0.0)` without raising; otherwise the
returned score is the maximum of the correlation response over all offsets
(it belongs to the response and bounds every response value) and `matched`
holds iff that score reaches the template's threshold. -/
theorem template_match_spec (templates : String → Option TemplateConfig)
    (fs : FileSystem) (ncc : Mat → Mat → List ℚ)
    (cache cache2 : TemplateCache) (frame_gray tpl : Mat) (thr : ℚ)
    (name : String)
    (hload : load_template templates fs cache name = Except.ok (cache2, tpl, thr))
    (hres : ncc frame_gray tpl ≠ []) :
    (frame_gray.rows < tpl.rows ∨ frame_gray.cols < tpl.cols →
      template_match templates fs ncc cache frame_gray name
        = Except.ok (cache2, false, 0)) ∧
    (¬(frame_gray.rows < tpl.rows ∨ frame_gray.cols < tpl.cols) →
      ∃ (matched : Bool) (score : ℚ),
        template_match templates fs ncc cache frame_gray name
          = Except.ok (cache2, matched, score) ∧
        score ∈ ncc frame_gray tpl ∧
        (∀ v ∈ ncc frame_gray tpl, v ≤ score) ∧
        (matched = true ↔ thr ≤ score)) := by
  constructor
  · intro hsmall
    have hb : (frame_gray.rows < tpl.rows || frame_gray.cols < tpl.cols) = true := by
      rcases hsmall with h | h <;> simp [h]
    simp [template_match, hload, matchLoaded, hb]
  · intro hbig
    have hb : (frame_gray.rows < tpl.rows || frame_gray.cols < tpl.cols) = false := by
      rcases not_or.mp hbig with ⟨h1, h2⟩
      simp [h1, h2]
    refine ⟨decide (thr ≤ maxValQ (ncc frame_gray tpl)), maxValQ (ncc frame_gray tpl),
      ?_, maxValQ_mem _ hres, fun v hv => maxValQ_ub _ v hv, by simp⟩
    simp [template_match, hload, matchLoaded, hb]

theorem template_match_spec_witness :
    load_template sampleTemplates sampleFS [] "start"
      = Except.ok ([("start", [[7]], 4/5)], [[7]], 4/5) ∧
    sampleNcc sampleFrame [[7]] ≠ [] ∧
    ¬(Mat.rows sampleFrame < Mat.rows [[7]] ∨ Mat.cols sampleFrame < Mat.cols [[7]]) ∧
    ∃ (matched : Bool) (score : ℚ),
      template_match sampleTemplates sampleFS sampleNcc [] sampleFrame "start"
        = Except.ok ([("start", [[7]], 4/5)], matched, score) ∧
      score ∈ sampleNcc sampleFrame [[7]] ∧
      (∀ v ∈ sampleNcc sampleFrame [[7]], v ≤ score) ∧
      (matched = true ↔ 4/5 ≤ score) := by
  have h1 : load_template sampleTemplates sampleFS [] "start"
      = Except.ok ([("start", [[7]], 4/5)], [[7]], 4/5) := rfl
  have h2 : sampleNcc sampleFrame [[7]] ≠ [] := by simp [sampleNcc]
  have h3 : ¬(Mat.rows sampleFrame < Mat.rows [[7]] ∨
      Mat.cols sampleFrame < Mat.cols [[7]]) := by decide
  exact ⟨h1, h2, h3,
    (template_match_spec sampleTemplates sampleFS sampleNcc []
      [("start", [[7]], 4/5)] sampleFrame [[7]] (4/5) "start" h1 h2).2 h3⟩

/-- C6: for a name present in the template table, a cache hit returns the
cached entry without consulting the filesystem at all; on a cache miss a
missing file raises `FileNotFoundError` and an undecodable file raises
`RuntimeError`, each propagating unchanged out of `match` with the caller's
cache left as it was (so a later call with the same cache retries the load —
the failure is never cached); a successful first load returns the decoded
image and threshold and caches them under the name, so subsequent calls hit
the cache-entry branch. -/
theorem load_template_cache_spec (templates : String → Option TemplateConfig)
    (fs : FileSystem) (cache : TemplateCache) (name : String)
    (config : TemplateConfig) (hname : templates name = some config) :
    (∀ (image : Mat) (thr : ℚ), cache.lookup name = some (image, thr) →
      ∀ fs2 : FileSystem, load_template templates fs2 cache name
        = Except.ok (cache, image, thr)) ∧
    (cache.lookup name = none → fs.pathExists config.path = false →
      load_template templates fs cache name
        = Except.error (.fileNotFound config.path)) ∧
    (cache.lookup name = none → fs.pathExists config.path = true →
      fs.imread config.path = none →
      load_template templates fs cache name
        = Except.error (.loadFailed config.path)) ∧
    (∀ e, load_template templates fs cache name = Except.error e →
      ∀ (ncc : Mat → Mat → List ℚ) (frame : Mat),
        template_match templates fs ncc cache frame name = Except.error e) ∧
    (cache.lookup name = none → fs.pathExists config.path = true →
      ∀ image : Mat, fs.imread config.path = some image →
      load_template templates fs cache name
        = Except.ok ((name, image, config.threshold) :: cache, image,
            config.threshold) ∧
      ((name, image, config.threshold) :: cache).lookup name
        = some (image, config.threshold)) := by
  refine ⟨?_, ?_, ?_, ?_, ?_⟩
  · intro image thr hhit fs2
    simp [load_template, hname, hhit]
  · intro hmiss hex
    simp [load_template, hname, hmiss, hex]
  · intro hmiss hex hdec
    simp [load_template, hname, hmiss, hex, hdec]
  · intro e herr ncc frame
    simp [template_match, herr]
  · intro hmiss hex image hdec
    refine ⟨by simp [load_template, hname, hmiss, hex, hdec], ?_⟩
    simp [List.lookup]

theorem load_template_cache_spec_witness :
    sampleTemplates "start" = some ⟨"start", "templates/start.png", 4/5⟩ ∧
    ([] : TemplateCache).lookup "start" = none ∧
    sampleFSMissing.pathExists "templates/start.png" = false ∧
    load_template sampleTemplates sampleFSMissing [] "start"
      = Except.error (.fileNotFound "templates/start.png") ∧
    sampleFS.pathExists "templates/start.png" = true ∧
    sampleFS.imread "templates/start.png" = some [[7]] ∧
    load_template sampleTemplates sampleFS [] "start"
      = Except.ok ([("start", [[7]], 4/5)], [[7]], 4/5) ∧
    ([("start", [[7]], 4/5)] : TemplateCache).lookup "start" = some ([[7]], 4/5) := by
  have hname : sampleTemplates "start" = some ⟨"start", "templates/start.png", 4/5⟩ := rfl
  have k1 := (load_template_cache_spec sampleTemplates sampleFSMissing [] "start"
    ⟨"start", "templates/start.png", 4/5⟩ hname).2.1 rfl rfl
  have k2 := (load_template_cache_spec sampleTemplates sampleFS [] "start"
    ⟨"start", "templates/start.png", 4/5⟩ hname).2.2.2.2 rfl rfl [[7]] rfl
  exact ⟨hname, rfl, rfl, k1, rfl, rfl, k2.1, k2.2⟩

/-- C7: `evaluate_all` is total (never raises): it returns exactly one
status per configured trade in configuration order, and the entry for a
trade whose evaluation failed is the neutral status (ratio `0.0`, no red
gem, all optional flags unset) while every other trade's entry is its own
evaluation result. -/
theorem evaluate_all_spec (evalTrade : TradeConfig → Except String TradeStatus)
    (trades : List TradeConfig) :
    (evaluate_all evalTrade trades).length = trades.length ∧
    ∀ (i : ℕ) (t : TradeConfig), trades[i]? = some t →
      (evaluate_all evalTrade trades)[i]?
        = some (match evalTrade t with
            | Except.ok s => s
            | Except.error _ => neutral_status t.name) := by
  induction trades with
  | nil =>
      refine ⟨rfl, ?_⟩
      intro i t h
      simp at h
  | cons trade rest ih =>
      have e : evaluate_all evalTrade (trade :: rest)
          = (match evalTrade trade with
              | Except.ok status => status
              | Except.error _ => neutral_status trade.name)
            :: evaluate_all evalTrade rest := rfl
      constructor
      · rw [e, List.length_cons, List.length_cons, ih.1]
      · intro i t h
        cases i with
        | zero =>
            rw [List.getElem?_cons_zero, Option.some_inj] at h
            subst h
            rw [e, List.getElem?_cons_zero]
        | succ n =>
            rw [List.getElem?_cons_succ] at h
            rw [e, List.getElem?_cons_succ]
            exact ih.2 n t h

theorem evaluate_all_spec_witness :
    ([sampleTradeA, sampleTradeB][0]? = some sampleTradeA ∧
      [sampleTradeA, sampleTradeB][1]? = some sampleTradeB) ∧
    (evaluate_all sampleEval [sampleTradeA, sampleTradeB]).length = 2 ∧
    (evaluate_all sampleEval [sampleTradeA, sampleTradeB])[0]?
      = some (neutral_status "a") ∧
    (evaluate_all sampleEval [sampleTradeA, sampleTradeB])[1]?
      = some ⟨"b", 1/10, true, none, none, none⟩ := by
  have k := evaluate_all_spec sampleEval [sampleTradeA, sampleTradeB]
  have h0 := k.2 0 sampleTradeA rfl
  have h1 := k.2 1 sampleTradeB rfl
  refine ⟨⟨rfl, rfl⟩, k.1, ?_, ?_⟩
  · simpa [sampleEval, sampleTradeA] using h0
  · simpa [sampleEval, sampleTradeB] using h1
